import Mathlib

/-
Shallow embedding of the proc-sc-sim repository (a discrete-time CPU
scheduling simulator) for checking its specification.

Sources embedded:
  src/src/proc.rs              process and task model
  src/src/timer/hashed_wheel.rs  hashed timing wheel
  src/src/os.rs                kernel (process table, clock, dispatch state)
  src/src/scheduler.rs         dispatch protocol trait + RR and STCF policies

Modelling conventions:
  - Rust u64 values are Nat.  Subtraction sites are modelled with an explicit
    two mod-2^64 wrap (w64sub), matching release-mode wrapping arithmetic;
    increments are plain Nat addition (a u64 increment only deviates after
    2^64 operations, far beyond anything the claims touch).
  - Rust isize values are Int; the `as usize` cast is modelled as the
    two-complement reinterpretation cast_usize.
  - HashMap is an association list; insertion replaces any entry with the
    same key, lookup is List.lookup.  Iteration order of a HashMap is
    unspecified; every use in the source is order-independent or sorts first.
  - Code paths that abort (HashMap indexing on a missing key, the capacity
    check in generate_pid) return Except.error with the message Rust emits.
-/

namespace PSim

/-- 2^64, the u64 wrap modulus. -/
def w64 : Int := 18446744073709551616

/-- Wrapping u64 subtraction: models the Rust `a - b` on u64 values. -/
def w64sub (a b : Nat) : Nat := (((a : Int) - (b : Int)) % w64).toNat

/-- Two-complement cast of an isize value to usize (Rust `i as usize`). -/
def cast_usize (i : Int) : Nat := (i % w64).toNat

/-! ## Process and task model (src/src/proc.rs) -/

/-- `pub type PId = usize;` -/
abbrev PId := Nat

/-- `pub enum Task { IOBound(u64), CPUBound(u64) }` -/
inductive Task where
  | IOBound (duration : Nat)
  | CPUBound (duration : Nat)
deriving DecidableEq

/-- `pub enum ProcessState { Runnable, Running, Waiting, Terminated }` -/
inductive ProcessState where
  | Runnable
  | Running
  | Waiting
  | Terminated
deriving DecidableEq

/-- `pub struct Process`, field for field. -/
structure Process where
  id : PId
  tasks : List Task
  state : ProcessState
  cpu : Nat
  name : Option String
  arrive_time : Nat
  turnaround_time : Option Nat
  burst_time : Nat
  complete_time : Option Nat
  response_time : Option Nat
  remaining_time : Nat
  time_have_burst : Nat
  complete : Bool
deriving DecidableEq

/-- `Process::new(pid, t_arrive, burst_time)` -/
def Process.new (pid : PId) (t_arrive : Nat) (burst_time : Nat) : Process :=
  { name := none
    id := pid
    state := ProcessState.Runnable
    cpu := 0
    tasks := []
    arrive_time := t_arrive
    turnaround_time := none
    burst_time := burst_time
    complete_time := none
    response_time := none
    time_have_burst := 0
    remaining_time := burst_time
    complete := false }

/-- `Process::append_task`: pushes the task and adds its duration to
`burst_time` (and, notably, not to `remaining_time`). -/
def Process.append_task (p : Process) (task : Task) : Process :=
  let p := { p with tasks := p.tasks ++ [task] }
  match task with
  | Task.IOBound duration | Task.CPUBound duration =>
      { p with burst_time := p.burst_time + duration }

/-- `Process::set_pid` -/
def Process.set_pid (p : Process) (pid : PId) : Process := { p with id := pid }

/-- `Process::set_complete(current_time)` -/
def Process.set_complete (p : Process) (current_time : Nat) : Process :=
  { p with
    state := ProcessState.Terminated
    complete_time := some current_time
    turnaround_time := some (w64sub current_time p.arrive_time) }

/-- `Process::is_complete` -/
def Process.is_complete (p : Process) : Bool :=
  match p.state with
  | ProcessState.Terminated => true
  | _ => false

/-- `Process::burst(clock)`: returns the mutated process together with the
Rust return value. -/
def Process.burst (p : Process) (clock : Nat) : Process × Option Task :=
  let p1 :=
    if p.time_have_burst = 0 then
      { p with response_time := some (w64sub (w64sub clock p.arrive_time) 1) }
    else p
  let p2 := { p1 with
    time_have_burst := p1.time_have_burst + 1
    remaining_time := w64sub p1.remaining_time 1 }
  if p2.burst_time ≤ p2.time_have_burst then
    (p2.set_complete clock, none)
  else
    match p2.tasks with
    | [] => (p2, none)
    | Task.IOBound d :: rest =>
        ({ p2 with tasks := Task.IOBound (w64sub d 1) :: rest },
         some (Task.IOBound (w64sub d 1)))
    | Task.CPUBound d :: rest =>
        ({ p2 with tasks := Task.CPUBound (w64sub d 1) :: rest },
         some (Task.CPUBound (w64sub d 1)))

/-- `Process::bump_to_next`: pops the front task, folds its remaining
duration into `time_have_burst`, and returns the popped task. -/
def Process.bump_to_next (p : Process) : Process × Option Task :=
  match p.tasks with
  | [] => (p, none)
  | task :: rest =>
      match task with
      | Task.IOBound duration | Task.CPUBound duration =>
          ({ p with tasks := rest, time_have_burst := p.time_have_burst + duration },
           some task)

/-! ## Hashed timing wheel (src/src/timer/hashed_wheel.rs) -/

/-- `HashedWheelTimeout<T>`: an entity paired with its round counter. -/
structure HashedWheelTimeout (T : Type) where
  item : T
  round : Int
deriving DecidableEq

/-- `HashedWheelTimeout::tick_a_round` -/
def HashedWheelTimeout.tick_a_round (t : HashedWheelTimeout T) : HashedWheelTimeout T :=
  { t with round := t.round - 1 }

/-- `HashedWheelBucket<T>`: a FIFO list of timeouts. -/
structure HashedWheelBucket (T : Type) where
  timeouts : List (HashedWheelTimeout T)
deriving DecidableEq

/-- `HashedWheelBucket::tick`: decrements the round of every timeout in the
bucket (the source calls this on every bucket on every wheel tick). -/
def HashedWheelBucket.tick (b : HashedWheelBucket T) : HashedWheelBucket T :=
  { timeouts := b.timeouts.map HashedWheelTimeout.tick_a_round }

/-- `HashedWheelBucket::empty` -/
def HashedWheelBucket.empty (b : HashedWheelBucket T) : Bool := b.timeouts.isEmpty

/-- `HashedWheelBucket::add_timeout` -/
def HashedWheelBucket.add_timeout (b : HashedWheelBucket T) (t : HashedWheelTimeout T) :
    HashedWheelBucket T :=
  { timeouts := b.timeouts ++ [t] }

/-- `HashedWheelBucket::expired_timeout`: the source binds the front round
test `t.round <= 0` to a variable it never reads, so the front timeout is
popped and returned whenever the bucket is non-empty, whatever its round. -/
def HashedWheelBucket.expired_timeout (b : HashedWheelBucket T) :
    Option T × HashedWheelBucket T :=
  match b.timeouts with
  | [] => (none, b)
  | t :: rest => (some t.item, { timeouts := rest })

/-- `HashedWheel<T>` -/
structure HashedWheel (T : Type) where
  buckets : List (HashedWheelBucket T)
  current_tick : Int
  wheel_size : Nat
  resolution : Nat
deriving DecidableEq

/-- `HashedWheel::with_size_and_resolution` -/
def HashedWheel.with_size_and_resolution (T : Type) (wheel_size resolution : Nat) :
    HashedWheel T :=
  { buckets := List.replicate wheel_size { timeouts := [] }
    current_tick := -1
    wheel_size := wheel_size
    resolution := resolution }

/-- `HashedWheel::new`: size 8, resolution 1. -/
def HashedWheel.new (T : Type) : HashedWheel T :=
  HashedWheel.with_size_and_resolution T 8 1

/-- `HashedWheel::empty` -/
def HashedWheel.empty (w : HashedWheel T) : Bool :=
  w.buckets.all HashedWheelBucket.empty

/-- `HashedWheel::tick`: advances the cursor by the resolution and ticks
every bucket (not only the one at the cursor). -/
def HashedWheel.tick (w : HashedWheel T) : HashedWheel T :=
  { w with
    current_tick := w.current_tick + (w.resolution : Int)
    buckets := w.buckets.map HashedWheelBucket.tick }

/-- `HashedWheel::add_timeout(value, deadline)`:
round = deadline / wheel_size + 1 (isize truncating division),
bucket index = (deadline as usize) % wheel_size. -/
def HashedWheel.add_timeout (w : HashedWheel T) (value : T) (deadline : Int) :
    HashedWheel T :=
  let round := deadline.tdiv (w.wheel_size : Int) + 1
  let idx := cast_usize deadline % w.wheel_size
  let b := (w.buckets.getD idx { timeouts := [] }).add_timeout
    { item := value, round := round }
  { w with buckets := w.buckets.set idx b }

/-- `HashedWheel::expire_timeout`: pops from the bucket at
(current_tick as usize) % wheel_size. -/
def HashedWheel.expire_timeout (w : HashedWheel T) : Option T × HashedWheel T :=
  let idx := cast_usize w.current_tick % w.wheel_size
  match (w.buckets.getD idx { timeouts := [] }).expired_timeout with
  | (res, b) => (res, { w with buckets := w.buckets.set idx b })

/-- Model-only helper: total number of pending timeouts, used as the fuel
bound for the drain loop in the dispatch protocol (each successful
expire_timeout removes exactly one timeout). -/
def HashedWheel.count (w : HashedWheel T) : Nat :=
  (w.buckets.map (fun b => b.timeouts.length)).sum

/-! ## Kernel (src/src/os.rs) -/

/-- `const MAX_PID: usize = 1 << 10;` -/
def MAX_PID : Nat := 1024

/-- Association-list insert with HashMap replace semantics. -/
def al_insert {β : Type} (k : Nat) (v : β) (l : List (Nat × β)) : List (Nat × β) :=
  (k, v) :: l.filter (fun kv => kv.1 != k)

/-- `pub struct Os` (the scheduler lives outside the state; the dispatch
protocol is modelled as functions over `Os` further below). -/
structure Os where
  interval : Nat
  clock : Nat
  waiting_list : HashedWheel PId
  processes : List (PId × Process)
  running_process_pid : Option PId
deriving DecidableEq

/-- `Os::new(interval, scheduler)` -/
def Os.new (interval : Option Nat) : Os :=
  { interval := match interval with | some x => x | none => 1
    clock := 0
    waiting_list := HashedWheel.new PId
    processes := []
    running_process_pid := none }

/-- HashMap `contains_key`. -/
def Os.contains (os : Os) (pid : PId) : Bool := (os.processes.lookup pid).isSome

/-- Models `processes.get_mut(&pid)` followed by a mutation: applies `f` to
the entry at `pid` when present.  (The source unwraps the lookup at its two
call sites; both are guarded so the entry is present there.) -/
def Os.modify_proc (os : Os) (pid : PId) (f : Process → Process) : Os :=
  { os with processes :=
      (os.processes.map (fun kv => if kv.1 = pid then (kv.1, f kv.2) else kv)) }

/-- `Os::generate_pid`: scans the live pids in sorted order for the smallest
free pid starting from 1, and aborts when it reaches MAX_PID. -/
def Os.generate_pid (os : Os) : Except String PId :=
  let sorted := (os.processes.map Prod.fst).insertionSort (· ≤ ·)
  let pid := sorted.foldl (fun pid i => if pid = i then pid + 1 else pid) 1
  if pid ≥ MAX_PID then Except.error ("no more process could be added!")
  else Except.ok pid

/-- `Os::add_proc`: assigns the generated pid to the process and inserts it.
Returns no pid to the caller (the Rust function returns `()`). -/
def Os.add_proc (os : Os) (process : Process) : Except String Os :=
  match os.generate_pid with
  | Except.error e => Except.error e
  | Except.ok pid =>
      Except.ok { os with processes := al_insert pid (process.set_pid pid) os.processes }

/-- `Os::get_proc` as in src/src/os.rs: `&self.processes[pid]`, which aborts
with the std HashMap index panic when the key is absent. -/
def Os.get_proc (os : Os) (pid : PId) : Except String Process :=
  match os.processes.lookup pid with
  | some p => Except.ok p
  | none => Except.error ("no entry found for key")

/-- The Option-returning process lookup that the scheduler code in
src/src/scheduler.rs compiles against (it calls `.map`/`.and_then` on the
result of `os.get_proc`). -/
def Os.get_proc_opt (os : Os) (pid : PId) : Option Process :=
  os.processes.lookup pid

/-- `Os::current_proc` -/
def Os.current_proc (os : Os) : Option Process :=
  os.running_process_pid.bind (fun pid => os.processes.lookup pid)

/-- `Os::is_completed`: empty table, or every entry has its `complete` flag
set. -/
def Os.is_completed (os : Os) : Bool :=
  os.processes.isEmpty || os.processes.all (fun kv => kv.2.complete)

/-- `Os::switch_proc(pid)`: note that the `Some(pid)` arm is guarded by
`if let Some(cur_pid) = self.running_process_pid`, so it does nothing when
no process is currently running. -/
def Os.switch_proc (os : Os) (pid? : Option PId) : Os :=
  match pid? with
  | some pid =>
      match os.running_process_pid with
      | some cur_pid =>
          let os :=
            if cur_pid = pid then
              os.modify_proc pid (fun p => { p with state := ProcessState.Waiting })
            else os
          if os.contains pid then
            { os.modify_proc pid (fun p => { p with state := ProcessState.Running }) with
              running_process_pid := some pid }
          else os
      | none => os
  | none => { os with running_process_pid := none }

/-- `Os::await_proc(pid, duration)`: registers the pid in the wheel with the
relative deadline (u64 to isize conversion). -/
def Os.await_proc (os : Os) (pid : PId) (duration : Nat) : Os :=
  { os with waiting_list := os.waiting_list.add_timeout pid (duration : Int) }

/-- `Os::expired_timeout` -/
def Os.expired_timeout (os : Os) : Option PId × Os :=
  match os.waiting_list.expire_timeout with
  | (r, w) => (r, { os with waiting_list := w })

/-- `Os::is_proc_running(pid)` -/
def Os.is_proc_running (os : Os) (pid : PId) : Bool :=
  match os.running_process_pid with
  | some id => id == pid
  | none => false

/-- `Os::complete_proc(pid)`: calls `set_complete(self.clock)` on the entry
whenever the pid is live, with no check of its current state. -/
def Os.complete_proc (os : Os) (pid : PId) : Os :=
  if os.contains pid then os.modify_proc pid (fun p => p.set_complete os.clock)
  else os

/-- The kernel-owned part of `Os::tick`: clock advance, wheel tick, and the
end-of-tick compaction that retains only non-Terminated processes.  (The
scheduler work in between is the dispatch protocol below.) -/
def Os.tick_frame (os : Os) : Os :=
  let os := { os with
    clock := os.clock + os.interval
    waiting_list := os.waiting_list.tick }
  { os with processes :=
      (os.processes.filter (fun kv =>
        match kv.2.state with
        | ProcessState.Terminated => false
        | _ => true)) }

/-! ## Dispatch protocol (the `Scheduler` trait of src/src/scheduler.rs)

The trait is modelled as a record of the three policy hooks; the provided
trait methods (`on_tick`, `burst_proc`, `run_task`, `run_io_bound_task`)
become functions parameterised by the hooks. -/

/-- The policy hooks of the `Scheduler` trait.  `on_process_ready` reads the
kernel and mutates only the policy state; `switch_process` and
`on_process_burst` may mutate both. -/
structure SchedulerHooks (σ : Type) where
  on_process_ready : Os → σ → PId → σ
  switch_process : Os → σ → Os × σ
  on_process_burst : Os → σ → PId → Os × σ

/-- Trait method `run_io_bound_task`: bumps the running process past its
exhausted segment, then completes it or registers a timeout, then switches
away if it is still the running process.  Note the inner closure shadows
`pid`: when `bump_to_next` yields no segment the shadowed pid is 0. -/
def run_io_bound_task (H : SchedulerHooks σ) (os : Os) (s : σ)
    (duration : Nat) (pid : PId) : Os × σ :=
  let os :=
    match os.get_proc_opt pid with
    | some process =>
        let (process, next) := process.bump_to_next
        let os := os.modify_proc pid (fun _ => process)
        let res :=
          match next with
          | some _ => (process.id, process.is_complete)
          | none => ((0 : PId), false)
        if res.2 then os.complete_proc res.1
        else os.await_proc res.1 duration
    | none => os
  if os.is_proc_running pid then H.switch_process os s else (os, s)

/-- Trait method `run_task`: CPU-bound segments keep running (the default
`run_cpu_bound_task` is a no-op); IO-bound segments block. -/
def run_task (H : SchedulerHooks σ) (os : Os) (s : σ) (task : Task) (pid : PId) :
    Os × σ :=
  match task with
  | Task.CPUBound _ => (os, s)
  | Task.IOBound duration => run_io_bound_task H os s duration pid

/-- Trait method `burst_proc`: bursts the running process by one tick,
handles segment boundary / completion, then calls the preemption hook; with
no running process it dispatches directly. -/
def burst_proc (H : SchedulerHooks σ) (os : Os) (s : σ) : Os × σ :=
  match os.running_process_pid.bind
      (fun pid => (os.processes.lookup pid).map (fun p => (pid, p))) with
  | some (pid, process) =>
      let (process, new_statement) := process.burst os.clock
      let is_completed := process.is_complete
      let os := os.modify_proc pid (fun _ => process)
      let (os, s) :=
        match new_statement with
        | some task => run_task H os s task pid
        | none =>
            if is_completed then
              let os := os.complete_proc pid
              if os.is_proc_running pid then H.switch_process os s else (os, s)
            else (os, s)
      H.on_process_burst os s pid
  | none => H.switch_process os s

/-- The `while let Some(p) = os.waiting_list.expire_timeout()` drain loop of
trait method `on_tick`, written with explicit fuel.  The fuel passed by
`on_tick` is the number of pending timeouts, an upper bound on the number of
loop iterations since every successful `expire_timeout` removes exactly one
timeout from the wheel. -/
def drain_expired (H : SchedulerHooks σ) : Nat → Os → σ → Os × σ
  | 0, os, s => (os, s)
  | Nat.succ n, os, s =>
      match os.expired_timeout with
      | (some p, os2) => drain_expired H n os2 (H.on_process_ready os2 s p)
      | (none, _) => (os, s)

/-- Trait method `on_tick`: drain the wheel through `on_process_ready`, then
`burst_proc`. -/
def on_tick (H : SchedulerHooks σ) (os : Os) (s : σ) : Os × σ :=
  let (os, s) := drain_expired H os.waiting_list.count os s
  burst_proc H os s

/-- `Os::tick`: clock advance, wheel tick, scheduler `on_tick`, then
compaction of Terminated processes. -/
def Os.tick (H : SchedulerHooks σ) (os : Os) (s : σ) : Os × σ :=
  let os := { os with
    clock := os.clock + os.interval
    waiting_list := os.waiting_list.tick }
  let (os, s) := on_tick H os s
  ({ os with processes :=
      (os.processes.filter (fun kv =>
        match kv.2.state with
        | ProcessState.Terminated => false
        | _ => true)) }, s)

/-! ## Round Robin policy (src/src/scheduler.rs, `RoundRobinScheduler`) -/

/-- `struct RoundRobinScheduler` -/
structure RRState where
  ready_queue : List PId
  used_time_slice_map : List (PId × Nat)
  time_slice : Nat
deriving DecidableEq

/-- `RoundRobinScheduler::switch_process`: `os.switch_proc(self.ready_queue.pop_front())`. -/
def rr_switch_process (os : Os) (s : RRState) : Os × RRState :=
  match s.ready_queue with
  | [] => (os.switch_proc none, s)
  | pid :: rest => (os.switch_proc (some pid), { s with ready_queue := rest })

/-- `RoundRobinScheduler::on_process_burst`: requeue at the tail and reset
the slice counter when the used slice has reached the quantum, else charge
one interval to the counter. -/
def rr_on_process_burst (os : Os) (s : RRState) (pid : PId) : Os × RRState :=
  let used_time_slice := (s.used_time_slice_map.lookup pid).getD 0
  if s.time_slice ≤ used_time_slice ∧ os.is_proc_running pid = true then
    let s := { s with
      ready_queue := s.ready_queue ++ [pid]
      used_time_slice_map := al_insert pid 0 s.used_time_slice_map }
    rr_switch_process os s
  else
    (os, { s with used_time_slice_map :=
            al_insert pid (used_time_slice + os.interval) s.used_time_slice_map })

/-- The Round Robin hooks. -/
def rrHooks : SchedulerHooks RRState :=
  { on_process_ready := fun _ s pid => { s with ready_queue := s.ready_queue ++ [pid] }
    switch_process := rr_switch_process
    on_process_burst := rr_on_process_burst }

/-! ## STCF policy (src/src/scheduler.rs, `STCFScheduler`)

`PriorityQueue<PId, Reverse<u64>>` is modelled as an association list of
(pid, key); the greatest `Reverse` priority is the least key.  `push`
updates the priority when the pid is already present.  Tie order among
equal keys is unspecified by the heap; the model keeps the first minimum
(no claim depends on a tie). -/

/-- `PriorityQueue::push` with `Reverse` keys. -/
def pq_push (q : List (PId × Nat)) (pid : PId) (key : Nat) : List (PId × Nat) :=
  if (q.lookup pid).isSome then
    q.map (fun kv => if kv.1 = pid then (pid, key) else kv)
  else q ++ [(pid, key)]

/-- `PriorityQueue::peek`: an entry of least key (greatest `Reverse`). -/
def pq_peek (q : List (PId × Nat)) : Option (PId × Nat) :=
  q.foldl (fun acc x =>
    match acc with
    | none => some x
    | some b => if x.2 < b.2 then some x else some b) none

/-- `PriorityQueue::pop`. -/
def pq_pop (q : List (PId × Nat)) : Option (PId × Nat) × List (PId × Nat) :=
  match pq_peek q with
  | none => (none, q)
  | some e => (some e, q.erase e)

/-- `struct STCFScheduler` -/
structure STCFState where
  ready_queue : List (PId × Nat)
deriving DecidableEq

/-- `STCFScheduler::on_process_ready`: pushes the pid keyed by the total
`burst_time` of the process (the same body as `SJFScheduler`), not by its
remaining time. -/
def stcf_on_process_ready (os : Os) (s : STCFState) (pid : PId) : STCFState :=
  match os.get_proc_opt pid with
  | some proc => { ready_queue := pq_push s.ready_queue pid proc.burst_time }
  | none => s

/-- `STCFScheduler::switch_process` -/
def stcf_switch_process (os : Os) (s : STCFState) : Os × STCFState :=
  match pq_pop s.ready_queue with
  | (popped, q) =>
      (os.switch_proc (popped.map Prod.fst), { ready_queue := q })

/-- `STCFScheduler::on_process_burst`: preempt when the best stored key is
strictly below the running process remaining time, re-inserting the
preempted pid keyed by its remaining time. -/
def stcf_on_process_burst (os : Os) (s : STCFState) (pid : PId) : Os × STCFState :=
  let process_remaining_time := ((os.get_proc_opt pid).map Process.remaining_time).getD 0
  let preempt : Bool :=
    match pq_peek s.ready_queue with
    | some kv => kv.2 < process_remaining_time
    | none => false
  if preempt then
    let (os, s) := stcf_switch_process os s
    (os, { ready_queue := pq_push s.ready_queue pid process_remaining_time })
  else (os, s)

/-- The STCF hooks. -/
def stcfHooks : SchedulerHooks STCFState :=
  { on_process_ready := fun os s pid => stcf_on_process_ready os s pid
    switch_process := stcf_switch_process
    on_process_burst := stcf_on_process_burst }

/-! ## Reachable kernel states

Processes are created by the workload collaborator with `Process::new`
followed by zero or more `append_task` calls, then handed to `add_proc`.
Every other mutation of the kernel state happens through kernel operations
or through the two process mutators the dispatch protocol reaches via the
process table (`burst`, `bump_to_next`).  `Reachable` closes the initial
state under all of them, so it over-approximates every state any policy can
produce. -/

/-- A workload-built process: `Process::new` plus a list of `append_task`s. -/
def mk_process (pid : PId) (t_arrive burst_time : Nat) (tasks : List Task) : Process :=
  tasks.foldl Process.append_task (Process.new pid t_arrive burst_time)

/-- Kernel states reachable from a fresh `Os` by kernel operations. -/
inductive Reachable : Os → Prop where
  | init (interval : Option Nat) : Reachable (Os.new interval)
  | add (os os' : Os) (pid : PId) (t b : Nat) (tasks : List Task) :
      Reachable os → os.add_proc (mk_process pid t b tasks) = Except.ok os' →
      Reachable os'
  | switch (os : Os) (pid? : Option PId) :
      Reachable os → Reachable (os.switch_proc pid?)
  | complete (os : Os) (pid : PId) :
      Reachable os → Reachable (os.complete_proc pid)
  | await (os : Os) (pid : PId) (d : Nat) :
      Reachable os → Reachable (os.await_proc pid d)
  | expire (os : Os) :
      Reachable os → Reachable (os.expired_timeout).2
  | burst (os : Os) (pid : PId) :
      Reachable os → Reachable (os.modify_proc pid (fun p => (p.burst os.clock).1))
  | bump (os : Os) (pid : PId) :
      Reachable os → Reachable (os.modify_proc pid (fun p => p.bump_to_next.1))
  | tick_frame (os : Os) :
      Reachable os → Reachable os.tick_frame

/-- The invariant of C10: no live process has its `complete` flag set. -/
def flags_clear (os : Os) : Prop :=
  ∀ kv ∈ os.processes, kv.2.complete = false

/-- The fold step of `generate_pid` as a named function: scans a (sorted)
pid list for the smallest value not present, starting from `p`. -/
def pid_scan (p : Nat) (l : List Nat) : Nat :=
  l.foldl (fun pid i => if pid = i then pid + 1 else pid) p

/-! ## Concrete fixtures used by individual claims -/

/-- C1 fixture: a fresh wheel holding entity 42 with deadline 8. -/
def wheel_c1 : HashedWheel Nat := (HashedWheel.new Nat).add_timeout 42 8

/-- C3 fixture: the running process, 12 of 20 ticks burst, 8 remaining. -/
def p_run_c3 : Process :=
  { Process.new 1 0 20 with
    state := ProcessState.Running
    time_have_burst := 12
    remaining_time := 8
    tasks := [Task.CPUBound 8] }

/-- C3 fixture: a process back from a wait, 4 of 10 ticks burst, 6
remaining. -/
def p_wait_c3 : Process :=
  { Process.new 2 0 10 with
    time_have_burst := 4
    remaining_time := 6
    tasks := [Task.CPUBound 6] }

/-- C3 fixture: kernel state with process 1 running and process 2 live. -/
def os_c3 : Os :=
  { Os.new none with
    clock := 30
    processes := [(1, p_run_c3), (2, p_wait_c3)]
    running_process_pid := some 1 }

/-- C5 fixture: a process terminated at clock 5. -/
def p_c5 : Process := (Process.new 1 0 5).set_complete 5

/-- C5 fixture: kernel state at clock 7 still holding the terminated
process. -/
def os_c5 : Os :=
  { Os.new none with clock := 7, processes := [(1, p_c5)] }

/-- C7 fixture: process 1, running, one CPU-bound segment of 10. -/
def p1_c7 : Process :=
  { Process.new 1 0 10 with tasks := [Task.CPUBound 10], state := ProcessState.Running }

/-- C7 fixture: process 2, ready, one CPU-bound segment of 10. -/
def p2_c7 : Process :=
  { Process.new 2 0 10 with tasks := [Task.CPUBound 10] }

/-- C7 fixture: kernel state with process 1 running and process 2 ready. -/
def os_c7 : Os :=
  { Os.new none with
    processes := [(1, p1_c7), (2, p2_c7)]
    running_process_pid := some 1 }

/-- C7 fixture: Round Robin state with quantum 1 and process 2 queued. -/
def rr_c7 : RRState :=
  { ready_queue := [2], used_time_slice_map := [], time_slice := 1 }

/-- C7 amended-claim witness fixture: a kernel state where process 1 is
running. -/
def os_c7w : Os := { Os.new none with running_process_pid := some 1 }

/-- C7 amended-claim witness fixture: quantum 1 already fully used by
process 1, process 2 queued. -/
def rr_c7w : RRState :=
  { ready_queue := [2], used_time_slice_map := [(1, 1)], time_slice := 1 }

/-- C9 fixture: a workload process whose state is Waiting at admission
time. -/
def p_c9 : Process := { Process.new 0 0 5 with state := ProcessState.Waiting }

/-- C9 amended-claim witness fixture: a kernel state with live pids 1 and 2. -/
def os_c9w : Os :=
  { Os.new none with processes := [(1, Process.new 1 0 5), (2, Process.new 2 0 5)] }

/-! ## Helper lemmas -/

theorem w64sub_eq_sub (a b : Nat) (hb : b ≤ a) (ha : a < 18446744073709551616) :
    w64sub a b = a - b := by
  simp only [w64sub, w64]
  omega

theorem append_task_complete (p : Process) (t : Task) :
    (p.append_task t).complete = p.complete := by
  cases t <;> rfl

theorem foldl_append_task_complete (l : List Task) :
    ∀ p : Process, (l.foldl Process.append_task p).complete = p.complete := by
  induction l with
  | nil => intro p; rfl
  | cons t rest ih =>
      intro p
      rw [List.foldl_cons, ih, append_task_complete]

theorem mk_process_complete (pid : PId) (t b : Nat) (tasks : List Task) :
    (mk_process pid t b tasks).complete = false := by
  rw [mk_process, foldl_append_task_complete]
  rfl

theorem set_pid_complete (p : Process) (pid : PId) :
    (p.set_pid pid).complete = p.complete := rfl

theorem set_complete_complete (p : Process) (t : Nat) :
    (p.set_complete t).complete = p.complete := rfl

theorem burst_fst_complete (p : Process) (c : Nat) :
    (p.burst c).1.complete = p.complete := by
  simp only [Process.burst, Process.set_complete]
  split
  all_goals split
  all_goals try rfl
  all_goals split <;> rfl

theorem bump_fst_complete (p : Process) :
    p.bump_to_next.1.complete = p.complete := by
  simp only [Process.bump_to_next]
  split
  · rfl
  · split <;> rfl

theorem burst_response_of_first (p : Process) (c : Nat) (h : p.time_have_burst = 0) :
    (p.burst c).1.response_time = some (w64sub (w64sub c p.arrive_time) 1) := by
  simp only [Process.burst, Process.set_complete, if_pos h]
  split
  · rfl
  · split <;> rfl

theorem burst_response_of_later (p : Process) (c : Nat) (h : ¬ p.time_have_burst = 0) :
    (p.burst c).1.response_time = p.response_time := by
  simp only [Process.burst, Process.set_complete, if_neg h]
  split
  · rfl
  · split <;> rfl

theorem burst_fst_time_have_burst (p : Process) (c : Nat) :
    (p.burst c).1.time_have_burst = p.time_have_burst + 1 := by
  simp only [Process.burst, Process.set_complete]
  split
  all_goals split
  all_goals try rfl
  all_goals split <;> rfl

theorem modify_proc_flags (os : Os) (pid : PId) (f : Process → Process)
    (hf : ∀ p, (f p).complete = p.complete) (h : flags_clear os) :
    flags_clear (os.modify_proc pid f) := by
  intro kv hm
  simp only [Os.modify_proc, List.mem_map] at hm
  obtain ⟨kv0, h0, hkv⟩ := hm
  by_cases hc : kv0.1 = pid
  · rw [if_pos hc] at hkv
    rw [← hkv]
    simp only [hf]
    exact h kv0 h0
  · rw [if_neg hc] at hkv
    rw [← hkv]
    exact h kv0 h0

theorem flags_clear_of_processes_eq (os os2 : Os)
    (hp : os2.processes = os.processes) (h : flags_clear os) : flags_clear os2 := by
  intro kv hm
  rw [hp] at hm
  exact h kv hm

theorem switch_proc_flags (os : Os) (pid? : Option PId) (h : flags_clear os) :
    flags_clear (os.switch_proc pid?) := by
  unfold Os.switch_proc
  split
  next pid =>
    split
    next cur hr =>
      dsimp only
      split
      · split
        · exact flags_clear_of_processes_eq _ _ rfl
            (modify_proc_flags _ pid (fun p => { p with state := ProcessState.Running })
              (fun p => rfl)
              (modify_proc_flags os pid (fun p => { p with state := ProcessState.Waiting })
                (fun p => rfl) h))
        · exact modify_proc_flags os pid
            (fun p => { p with state := ProcessState.Waiting }) (fun p => rfl) h
      · split
        · exact flags_clear_of_processes_eq _ _ rfl
            (modify_proc_flags os pid (fun p => { p with state := ProcessState.Running })
              (fun p => rfl) h)
        · exact h
    next hr => exact h
  next => exact flags_clear_of_processes_eq _ _ rfl h

theorem complete_proc_flags (os : Os) (pid : PId) (h : flags_clear os) :
    flags_clear (os.complete_proc pid) := by
  unfold Os.complete_proc
  split
  · exact modify_proc_flags os pid _ (fun p => set_complete_complete p os.clock) h
  · exact h

theorem tick_frame_flags (os : Os) (h : flags_clear os) :
    flags_clear os.tick_frame := by
  intro kv hm
  simp only [Os.tick_frame, List.mem_filter] at hm
  exact h kv hm.1

theorem reachable_flags_clear (os : Os) (h : Reachable os) : flags_clear os := by
  induction h with
  | init interval =>
      intro kv hm
      simp [Os.new] at hm
  | add os os' pid t b tasks hr hok ih =>
      unfold Os.add_proc at hok
      match hg : os.generate_pid with
      | Except.error e => rw [hg] at hok; exact absurd hok (by simp)
      | Except.ok newpid =>
          rw [hg] at hok
          simp only [Except.ok.injEq] at hok
          subst hok
          intro kv hm
          simp only [al_insert, List.mem_cons, List.mem_filter] at hm
          rcases hm with hm | hm
          · rw [hm]
            rw [set_pid_complete, mk_process_complete]
          · exact ih kv hm.1
  | switch os pid? hr ih => exact switch_proc_flags os pid? ih
  | complete os pid hr ih => exact complete_proc_flags os pid ih
  | await os pid d hr ih => exact ih
  | expire os hr ih =>
      intro kv hm
      exact ih kv hm
  | burst os pid hr ih =>
      exact modify_proc_flags os pid _ (fun p => burst_fst_complete p os.clock) ih
  | bump os pid hr ih =>
      exact modify_proc_flags os pid _ (fun p => bump_fst_complete p) ih
  | tick_frame os hr ih => exact tick_frame_flags os ih

theorem is_completed_iff_of_flags (os : Os) (h : flags_clear os) :
    os.is_completed = true ↔ os.processes = [] := by
  unfold Os.is_completed
  match hp : os.processes with
  | [] => simp
  | kv :: rest =>
      have hflag : kv.2.complete = false := h kv (by rw [hp]; exact List.mem_cons_self kv rest)
      simp [hflag]

/-! ### Pid-allocation helper lemmas (for C9)

`generate_pid` folds `if pid = i then pid + 1 else pid` from 1 over the
sorted live pids; over a strictly sorted list whose elements all dominate
the start value this computes a value outside the list. -/

theorem pid_scan_nil (p : Nat) : pid_scan p [] = p := rfl

theorem pid_scan_cons (p i : Nat) (rest : List Nat) :
    pid_scan p (i :: rest) = pid_scan (if p = i then p + 1 else p) rest := rfl

theorem pid_scan_ge (l : List Nat) : ∀ p : Nat, p ≤ pid_scan p l := by
  induction l with
  | nil => intro p; rw [pid_scan_nil]
  | cons i rest ih =>
      intro p
      rw [pid_scan_cons]
      rcases eq_or_ne p i with he | hne
      · rw [if_pos he]
        exact le_trans (Nat.le_succ p) (ih (p + 1))
      · rw [if_neg hne]
        exact ih p

theorem pid_scan_not_mem (l : List Nat) : ∀ p : Nat, p ∉ l → pid_scan p l = p := by
  induction l with
  | nil => intro p _; rw [pid_scan_nil]
  | cons i rest ih =>
      intro p hp
      have hne : p ≠ i := fun he => hp (he ▸ List.mem_cons_self i rest)
      rw [pid_scan_cons, if_neg hne]
      exact ih p (fun hm => hp (List.mem_cons_of_mem i hm))

theorem pid_scan_fresh (l : List Nat) :
    ∀ p : Nat, l.Sorted (· < ·) → (∀ x ∈ l, p ≤ x) → pid_scan p l ∉ l := by
  induction l with
  | nil => intro p _ _ hm; exact absurd hm (List.not_mem_nil _)
  | cons i rest ih =>
      intro p hs hb
      obtain ⟨hlt, hrest⟩ := List.pairwise_cons.mp hs
      rcases eq_or_ne p i with he | hne
      · subst he
        rw [pid_scan_cons, if_pos rfl]
        intro hm
        rcases List.mem_cons.mp hm with h1 | h1
        · have := pid_scan_ge rest (p + 1)
          omega
        · exact ih (p + 1) hrest (fun x hx => Nat.succ_le_of_lt (hlt x hx)) h1
      · have hpi : p < i := lt_of_le_of_ne (hb i (List.mem_cons_self i rest)) hne
        rw [pid_scan_cons, if_neg hne]
        have hnm : p ∉ rest := fun hm => absurd (hlt p hm) (by omega)
        rw [pid_scan_not_mem rest p hnm]
        intro hm
        rcases List.mem_cons.mp hm with h1 | h1
        · omega
        · exact hnm h1

/-! ## Claim theorems -/

/-- Claim C1, evaluated at a failing input.  The claim states that after
`add_timeout(x, d)`, calling `expire_timeout()` fewer than `d` ticks after
insertion never returns `x`, and that an entity is returned from the cursor
bucket only once its round has reached zero.  On the code, entity 42 with
deadline 8 (bucket 0, initial round 2) is returned by `expire_timeout` after
a single `tick()`, at which point its round is still 1: `tick()` decrements
the round of every entry in every bucket, and `expired_timeout` binds the
round test to an unused variable and pops the bucket front unconditionally. -/
theorem c1_wheel_returns_entity_after_one_tick_of_eight :
    (wheel_c1.tick.expire_timeout.1 = some 42) ∧
    ((wheel_c1.tick.buckets.getD 0 { timeouts := [] }).timeouts.map
        HashedWheelTimeout.round = [1]) := by decide

/-- Claim C2, evaluated at a failing input.  The claim states that
`switch_to(Some(id))` sets the running-process pointer to `id` for a live
process even when no process is currently running.  On the code, admitting
one process (it gets pid 1) into a fresh kernel and calling
`switch_proc(Some(1))` leaves the pointer `None`: the `Some(pid)` arm is
guarded by `if let Some(cur_pid) = self.running_process_pid` and does
nothing from an idle state. -/
theorem c2_switch_proc_ignores_request_when_idle :
    ((Os.new none).add_proc (Process.new 0 0 5)).map
        (fun os => ((os.switch_proc (some 1)).running_process_pid,
                    (os.processes.lookup 1).isSome))
      = Except.ok (none, true) := by rfl

/-- Claim C3, evaluated at a failing input.  The claim states the STCF ready
structure is keyed by remaining time and that `on_burst` preempts whenever
the best ready remaining time is strictly below the running process
remaining time.  On the code, `on_process_ready` keys process 2 by its total
burst time 10 although its remaining time is 6 (it has already burst 4
ticks), so `on_process_burst` for the running process 1 (remaining 8)
compares 10 < 8, does not preempt, and process 1 keeps running although
process 2 has remaining 6 < 8. -/
theorem c3_stcf_keys_by_burst_time_and_misses_preemption :
    (stcf_on_process_ready os_c3 { ready_queue := [] } 2).ready_queue = [(2, 10)] ∧
    p_wait_c3.remaining_time = 6 ∧
    p_run_c3.remaining_time = 8 ∧
    (stcf_on_process_burst os_c3 { ready_queue := [(2, 10)] } 1).1.running_process_pid
      = some 1 ∧
    (stcf_on_process_burst os_c3 { ready_queue := [(2, 10)] } 1).2.ready_queue
      = [(2, 10)] := by decide

/-- Claim C4, evaluated at a failing input.  The claim states that after
every operation `remaining_time = total_burst_time - ticks_already_burst`.
On the code, `append_task` adds the task duration to `burst_time` but not to
`remaining_time`: after `Process::new(1, 0, 5)` and
`append_task(CPUBound(3))` the process has `remaining_time = 5` but
`burst_time - time_have_burst = 8`. -/
theorem c4_append_task_breaks_remaining_time_invariant :
    ((Process.new 1 0 5).append_task (Task.CPUBound 3)).remaining_time = 5 ∧
    ((Process.new 1 0 5).append_task (Task.CPUBound 3)).burst_time = 8 ∧
    ((Process.new 1 0 5).append_task (Task.CPUBound 3)).time_have_burst = 0 ∧
    ¬ (((Process.new 1 0 5).append_task (Task.CPUBound 3)).remaining_time
        = ((Process.new 1 0 5).append_task (Task.CPUBound 3)).burst_time
          - ((Process.new 1 0 5).append_task (Task.CPUBound 3)).time_have_burst) := by
  decide

/-- Claim C5 counterexample.  The claim states that invoking `complete(id)`
on an already-terminated process leaves `completion_tick` and
`turnaround_time` unchanged.  On the code, a process terminated at clock 5
that is completed again at clock 7 has its `complete_time` reassigned from
`some 5` to `some 7` (and its turnaround from 5 to 7): `complete_proc`
unconditionally calls `set_complete(self.clock)` on any live pid. -/
theorem c5_complete_proc_reassigns_completion_tick :
    p_c5.state = ProcessState.Terminated ∧
    p_c5.complete_time = some 5 ∧
    p_c5.turnaround_time = some 5 ∧
    (((os_c5.complete_proc 1).processes.lookup 1).map Process.complete_time)
      = some (some 7) ∧
    (((os_c5.complete_proc 1).processes.lookup 1).map Process.turnaround_time)
      = some (some 7) := by decide

/-- Claim C8, evaluated at a failing input.  The claim states that
`get_process(id)` returns an absent result, not an abort, for an unknown id.
On the code, `get_proc` indexes the process table (`&self.processes[pid]`),
which aborts with the std HashMap index panic for an unknown id; the model
surfaces that abort as `Except.error`.  (The scheduler code in
src/src/scheduler.rs treats the result of `get_proc` as an Option, which is
what the claim describes.) -/
theorem c8_get_proc_aborts_on_unknown_pid :
    (Os.new none).get_proc 42 = Except.error ("no entry found for key") := by rfl

/-- Claim C9 counterexample.  The claim states `admit(process)` inserts the
process in `Runnable` state and returns the assigned id.  On the code,
`add_proc` stores the process with whatever state it already carries (it
only sets the pid) and returns nothing: admitting a process whose state is
`Waiting` leaves it `Waiting` in the table. -/
theorem c9_add_proc_preserves_incoming_state :
    ((Os.new none).add_proc p_c9).map
        (fun os => (os.processes.lookup 1).map Process.state)
      = Except.ok (some ProcessState.Waiting) := by rfl

/-- Claim C7 counterexample.  The claim states that under Round Robin with
quantum q no process accumulates more than q consecutive ticks of running
time without completing, blocking, or being requeued.  On the code, with
quantum 1, process 1 running and process 2 ready: after the first tick
process 1 has burst once and is still the running process with the ready
queue untouched (no requeue — the hook saw a used slice of 0 and only then
charged the tick); during the second tick it bursts again, reaching 2
consecutive running ticks > quantum 1, and only then is requeued (ready
queue becomes [1], process 2 dispatched). -/
theorem c7_round_robin_runs_quantum_plus_one_ticks :
    rr_c7.time_slice = 1 ∧
    ((Os.tick rrHooks os_c7 rr_c7).1.running_process_pid = some 1) ∧
    ((Os.tick rrHooks os_c7 rr_c7).2.ready_queue = [2]) ∧
    ((((Os.tick rrHooks os_c7 rr_c7).1.processes.lookup 1).map
        Process.time_have_burst) = some 1) ∧
    (((Os.tick rrHooks (Os.tick rrHooks os_c7 rr_c7).1
          (Os.tick rrHooks os_c7 rr_c7).2).1.processes.lookup 1).map
        Process.time_have_burst) = some 2 ∧
    ((Os.tick rrHooks (Os.tick rrHooks os_c7 rr_c7).1
        (Os.tick rrHooks os_c7 rr_c7).2).1.running_process_pid = some 2) ∧
    ((Os.tick rrHooks (Os.tick rrHooks os_c7 rr_c7).1
        (Os.tick rrHooks os_c7 rr_c7).2).2.ready_queue = [1]) := by decide

/-- Claim C5 as amended.  Once a process is terminated by `set_complete(t)`,
its turnaround equals the completion tick minus the arrival tick and its
completion tick is `t`; completion is idempotent only at an unchanged clock
(re-invocation at a later clock reassigns both fields, as the
counterexample shows). -/
theorem c5_amended_terminated_turnaround_relation (p : Process) (t : Nat)
    (h1 : p.arrive_time ≤ t) (h2 : t < 18446744073709551616) :
    (p.set_complete t).state = ProcessState.Terminated ∧
    (p.set_complete t).complete_time = some t ∧
    (p.set_complete t).turnaround_time = some (t - p.arrive_time) ∧
    (p.set_complete t).set_complete t = p.set_complete t := by
  refine ⟨rfl, rfl, ?_, ?_⟩
  · simp only [Process.set_complete]
    rw [w64sub_eq_sub t p.arrive_time h1 h2]
  · rfl

/-- Witness for the amended C5 at a concrete input. -/
theorem c5_amended_terminated_turnaround_relation_witness :
    ((Process.new 1 2 5).set_complete 9).state = ProcessState.Terminated ∧
    ((Process.new 1 2 5).set_complete 9).complete_time = some 9 ∧
    ((Process.new 1 2 5).set_complete 9).turnaround_time = some 7 ∧
    ((Process.new 1 2 5).set_complete 9).set_complete 9
      = (Process.new 1 2 5).set_complete 9 := by
  have h := c5_amended_terminated_turnaround_relation (Process.new 1 2 5) 9
    (by decide) (by decide)
  exact ⟨h.1, h.2.1, h.2.2.1, h.2.2.2⟩

/-- Claim C6, confirmed.  For a process that has never burst
(`ticks_already_burst = 0`), bursting at clock `c` sets
`response_time = c - arrival - 1` (well defined and non-negative whenever
the arrival precedes the burst tick, `arrival + 1 ≤ c`); any burst of a
process that has burst before leaves `response_time` unchanged, and a burst
always leaves `ticks_already_burst` positive, so the first-burst condition
never recurs and the field is set exactly once. -/
theorem c6_response_time_set_once_at_first_burst (p q : Process) (c c2 : Nat)
    (h0 : p.time_have_burst = 0)
    (h1 : p.arrive_time + 1 ≤ c)
    (h2 : c < 18446744073709551616)
    (hq : q.time_have_burst ≠ 0) :
    (p.burst c).1.response_time = some (c - p.arrive_time - 1) ∧
    0 < (p.burst c).1.time_have_burst ∧
    (q.burst c2).1.response_time = q.response_time ∧
    0 < (q.burst c2).1.time_have_burst := by
  have ha : p.arrive_time ≤ c := by omega
  have hsub1 : w64sub c p.arrive_time = c - p.arrive_time :=
    w64sub_eq_sub c p.arrive_time ha h2
  have hsub2 : w64sub (c - p.arrive_time) 1 = c - p.arrive_time - 1 :=
    w64sub_eq_sub (c - p.arrive_time) 1 (by omega) (by omega)
  refine ⟨?_, ?_, ?_, ?_⟩
  · rw [burst_response_of_first p c h0, hsub1, hsub2]
  · rw [burst_fst_time_have_burst]; omega
  · exact burst_response_of_later q c2 hq
  · rw [burst_fst_time_have_burst]; omega

/-- Witness for C6 at a concrete input: first burst at clock 3 of a process
arrived at 0 sets response time 2; the next burst leaves it at 2. -/
theorem c6_response_time_set_once_at_first_burst_witness :
    ((Process.new 1 0 5).burst 3).1.response_time = some 2 ∧
    0 < ((Process.new 1 0 5).burst 3).1.time_have_burst ∧
    (((Process.new 1 0 5).burst 3).1.burst 4).1.response_time = some 2 ∧
    0 < (((Process.new 1 0 5).burst 3).1.burst 4).1.time_have_burst := by
  have h := c6_response_time_set_once_at_first_burst
    (Process.new 1 0 5) ((Process.new 1 0 5).burst 3).1 3 4
    (by decide) (by decide) (by decide) (by decide)
  exact ⟨h.1, h.2.1, h.2.2.1.trans h.1, h.2.2.2⟩

/-- Claim C7 as amended.  A running process is requeued (tail of the ready
queue, slice counter reset, head of the queue dispatched) exactly at the
burst hook in which its used slice counter has already reached the quantum;
since the counter starts at 0 and is charged after each burst, this is the
(quantum + 1)-th consecutive burst, so a process runs at most quantum + 1
(not quantum) consecutive ticks before requeue. -/
theorem c7_amended_requeue_when_counter_reaches_quantum
    (os : Os) (s : RRState) (pid q0 : PId) (rest : List PId)
    (hrun : os.is_proc_running pid = true)
    (hq : s.time_slice ≤ (s.used_time_slice_map.lookup pid).getD 0)
    (hne : s.ready_queue = q0 :: rest) :
    (rr_on_process_burst os s pid).2.ready_queue = rest ++ [pid] ∧
    (rr_on_process_burst os s pid).2.used_time_slice_map.lookup pid = some 0 ∧
    (rr_on_process_burst os s pid).1 = os.switch_proc (some q0) := by
  unfold rr_on_process_burst
  rw [if_pos ⟨hq, hrun⟩]
  rw [hne]
  simp [rr_switch_process, al_insert, List.lookup]

/-- Witness for the amended C7 at a concrete input. -/
theorem c7_amended_requeue_when_counter_reaches_quantum_witness :
    (rr_on_process_burst os_c7w rr_c7w 1).2.ready_queue = [1] ∧
    (rr_on_process_burst os_c7w rr_c7w 1).2.used_time_slice_map.lookup 1 = some 0 ∧
    (rr_on_process_burst os_c7w rr_c7w 1).1 = os_c7w.switch_proc (some 2) := by
  have h := c7_amended_requeue_when_counter_reaches_quantum os_c7w rr_c7w 1 2 []
    (by decide) (by decide) (by rfl)
  exact ⟨h.1, h.2.1, h.2.2⟩

/-- Claim C9 as amended.  `generate_pid` yields a pid that is fresh (not
among the live pids), at least 1, and below MAX_PID, for any table with
distinct positive pids; `add_proc` stores the process under that pid with
its incoming state preserved (see the counterexample) and returns nothing. -/
theorem c9_amended_generated_pid_is_fresh (os : Os) (pid : PId)
    (hnd : (os.processes.map Prod.fst).Nodup)
    (hpos : ∀ k ∈ os.processes.map Prod.fst, 1 ≤ k)
    (hok : os.generate_pid = Except.ok pid) :
    pid ∉ os.processes.map Prod.fst ∧ 1 ≤ pid ∧ pid < MAX_PID := by
  unfold Os.generate_pid at hok
  dsimp only at hok
  split at hok
  · exact absurd hok (by simp)
  · next hcap =>
      simp only [Except.ok.injEq] at hok
      have hperm := List.perm_insertionSort (· ≤ ·) (os.processes.map Prod.fst)
      have hsorted := List.sorted_insertionSort (· ≤ ·) (os.processes.map Prod.fst)
      have hnd2 : ((os.processes.map Prod.fst).insertionSort (· ≤ ·)).Nodup :=
        hperm.nodup_iff.mpr hnd
      have hstrict : ((os.processes.map Prod.fst).insertionSort (· ≤ ·)).Sorted (· < ·) :=
        (hsorted.and hnd2).imp (fun h => lt_of_le_of_ne h.1 h.2)
      have hb : ∀ x ∈ (os.processes.map Prod.fst).insertionSort (· ≤ ·), 1 ≤ x :=
        fun x hx => hpos x (hperm.mem_iff.mp hx)
      have hfresh := pid_scan_fresh _ 1 hstrict hb
      have hge := pid_scan_ge ((os.processes.map Prod.fst).insertionSort (· ≤ ·)) 1
      subst hok
      exact ⟨fun hm => hfresh (hperm.mem_iff.mpr hm), hge, lt_of_not_ge hcap⟩

/-- Witness for the amended C9 at a concrete input: with live pids 1 and 2
the generated pid is 3, fresh. -/
theorem c9_amended_generated_pid_is_fresh_witness :
    (3 : Nat) ∉ os_c9w.processes.map Prod.fst ∧ 1 ≤ (3 : Nat) ∧ (3 : Nat) < MAX_PID := by
  have h := c9_amended_generated_pid_is_fresh os_c9w 3 (by decide) (by decide) (by rfl)
  exact h

/-- Claim C10, confirmed.  No kernel operation ever sets a process's
`complete` boolean flag (in particular `set_complete` terminates the
process and fills its timing fields without touching the flag), so in every
reachable kernel state every table entry has `complete = false`, and
`is_completed` returns true exactly when the process table is empty. -/
theorem c10_is_completed_iff_table_empty (os : Os) (h : Reachable os) :
    flags_clear os ∧ (os.is_completed = true ↔ os.processes = []) :=
  ⟨reachable_flags_clear os h,
   is_completed_iff_of_flags os (reachable_flags_clear os h)⟩

/-- Witness for C10 at the initial kernel state. -/
theorem c10_is_completed_iff_table_empty_witness :
    flags_clear (Os.new none) ∧
    ((Os.new none).is_completed = true ↔ (Os.new none).processes = []) :=
  c10_is_completed_iff_table_empty (Os.new none) (Reachable.init none)

end PSim
